import Mathlib

/-
Shallow embedding of the SPARC12 semantic-retrieval subsystem:
src/sparc-server/enhanced_embeddings.py (classes EnhancedSPARCSearch and
EnhancedContextPortalSPARCServer) and src/sparc-server/specialized_mcp_server.py
(class ContextPortalSPARCServer).  Machine floats are modelled as exact
rationals; the float NaN arising from 0.0/0.0 is modelled by an explicit
zero-denominator branch, since in numpy that division warns and yields NaN
(which fails every >= comparison) instead of raising.  External library
calls (json.loads / json.dumps, np.linalg.norm square root) are abstract
parameters, constrained only by the properties the code relies on.
-/

/-- Kinds of Python exceptions raised by the embedded code paths. -/
inductive PyError where
  | valueError
  | databaseError
  | indexError
  | providerError
deriving DecidableEq

/-- Failure surfaced by EnhancedSPARCSearch.semantic_search.  The try/except
wraps a sqlite3.DatabaseError into SemanticSearchError; every other
exception propagates unchanged. -/
inductive SearchFailure where
  | semanticSearchError
  | unhandled (e : PyError)
deriving DecidableEq

/-- A Python value as produced by json.loads: either a string or some
non-string JSON value, kept opaque and identified by a token. -/
inductive PyVal where
  | pstr (s : String)
  | pother (o : String)
deriving DecidableEq

/-- Abstract model of the Python json library used by the code: loads
returns none exactly when json.loads raises, dumps re-serializes a value. -/
structure JsonModel where
  loads : String → Option PyVal
  dumps : PyVal → String

/-- Abstract model of the square root inside np.linalg.norm, on exact
rationals.  The only property of the external routine the code relies on is
that the norm is zero exactly when the squared norm is zero. -/
structure SqrtModel where
  f : ℚ → ℚ
  zero_iff : ∀ x : ℚ, 0 ≤ x → (f x = 0 ↔ x = 0)

/-- A BLOB column value holding 8 * chunks.length + extra bytes, where each
chunk is one IEEE-754 double kept as an exact rational and extra counts
trailing bytes that do not fill a double. -/
structure Blob where
  chunks : List ℚ
  extra : Fin 8
deriving DecidableEq

/-- Byte length of a blob. -/
def Blob.byteLen (b : Blob) : Nat := 8 * b.chunks.length + b.extra.val

/-- np.frombuffer(blob, dtype=np.float64): raises ValueError unless the byte
length is a multiple of 8, otherwise yields one double per 8 bytes. -/
def frombuffer (b : Blob) : Except PyError (List ℚ) :=
  if b.extra.val = 0 then .ok b.chunks else .error .valueError

/-- Row of the decisions table. -/
structure DecisionRow where
  id : Nat
  summary : String
  rationale : String
  tags : String
  timestamp : String
  phase_name : String
deriving DecidableEq

/-- Row of the progress table. -/
structure ProgressRow where
  id : Nat
  description : String
  status : String
  timestamp : String
  parent_id : Option Int
  phase_name : String
deriving DecidableEq

/-- Row of the system_patterns table. -/
structure PatternRow where
  id : Nat
  name : String
  description : String
  tags : String
  timestamp : String
  phase_name : String
deriving DecidableEq

/-- Row of the custom_data table; value holds the stored JSON text. -/
structure CustomRow where
  id : Nat
  category : String
  key : String
  value : String
  timestamp : String
  phase_name : String
deriving DecidableEq

/-- Row of the item_embeddings table (schema from _setup_vector_tables,
including UNIQUE(item_type, item_id, embedding_model)).  Rows are listed in
rowid order, which is insertion order. -/
structure EmbeddingRow where
  item_type : String
  item_id : Nat
  embedding : Blob
  text_content : String
  embedding_model : String
  created_at : String
deriving DecidableEq

/-- The sqlite database state: the four source tables and the embeddings
table, each as a list of rows in rowid order. -/
structure DB where
  decisions : List DecisionRow
  progress : List ProgressRow
  system_patterns : List PatternRow
  custom_data : List CustomRow
  item_embeddings : List EmbeddingRow
deriving DecidableEq

/-- An embedding provider: its identity string (the name property) and its
batch encode, which may raise.  In this model encode is a function, hence
deterministic, matching the tfidf transform path. -/
structure Provider where
  name : String
  encodeB : List String → Except PyError (List (List ℚ))

/-- The single-query embedding self.provider.encode([query])[0]: indexing an
empty result raises IndexError. -/
def Provider.encode1 (p : Provider) (query : String) : Except PyError (List ℚ) :=
  match p.encodeB [query] with
  | .error e => .error e
  | .ok [] => .error .indexError
  | .ok (v :: _) => .ok v

/-- EnhancedSPARCSearch._get_item_text_content: per-kind text extraction.
For custom_data the stored JSON text is parsed; a parsed string is used
directly, a parsed non-string is re-serialized, and a parse failure falls
back to the raw stored text (the bare except branch). -/
def getItemTextContent (J : JsonModel) (db : DB) (item_type : String) (item_id : Nat) :
    Option String :=
  if item_type = "decisions" then
    (db.decisions.find? (fun r => r.id == item_id)).map
      (fun r => r.summary ++ ". " ++ r.rationale)
  else if item_type = "progress" then
    (db.progress.find? (fun r => r.id == item_id)).map (fun r => r.description)
  else if item_type = "system_patterns" then
    (db.system_patterns.find? (fun r => r.id == item_id)).map
      (fun r => r.name ++ ". " ++ r.description)
  else if item_type = "custom_data" then
    (db.custom_data.find? (fun r => r.id == item_id)).map (fun r =>
      let value_str :=
        match J.loads r.value with
        | some (PyVal.pstr s) => s
        | some v => J.dumps v
        | none => r.value
      r.category ++ "/" ++ r.key ++ ": " ++ value_str)
  else none

/-- A hydrated source row as returned by _get_full_item_data: dict(row),
with the custom_data value JSON-decoded. -/
inductive ItemData where
  | dec (r : DecisionRow)
  | prog (r : ProgressRow)
  | pat (r : PatternRow)
  | cust (r : CustomRow) (value : PyVal)
deriving DecidableEq

/-- The phase_name column of a hydrated row (present in all four tables). -/
def ItemData.phaseName : ItemData → String
  | .dec r => r.phase_name
  | .prog r => r.phase_name
  | .pat r => r.phase_name
  | .cust r _ => r.phase_name

/-- The timestamp column of a hydrated row (present in all four tables). -/
def ItemData.tstamp : ItemData → String
  | .dec r => r.timestamp
  | .prog r => r.timestamp
  | .pat r => r.timestamp
  | .cust r _ => r.timestamp

/-- EnhancedSPARCSearch._get_full_item_data: ok none when the source row is
absent or the kind is unknown; for custom_data, json.loads on the stored
value may raise, which propagates (it is not a sqlite error). -/
def getFullItemData (J : JsonModel) (db : DB) (item_type : String) (item_id : Nat) :
    Except PyError (Option ItemData) :=
  if item_type = "decisions" then
    .ok ((db.decisions.find? (fun r => r.id == item_id)).map ItemData.dec)
  else if item_type = "progress" then
    .ok ((db.progress.find? (fun r => r.id == item_id)).map ItemData.prog)
  else if item_type = "system_patterns" then
    .ok ((db.system_patterns.find? (fun r => r.id == item_id)).map ItemData.pat)
  else if item_type = "custom_data" then
    match db.custom_data.find? (fun r => r.id == item_id) with
    | none => .ok none
    | some r =>
      match J.loads r.value with
      | none => .error .valueError
      | some v => .ok (some (ItemData.cust r v))
  else .ok none

/-- np.dot on equal-length vectors. -/
def dotp (q s : List ℚ) : ℚ := (List.zipWith (fun a b => a * b) q s).sum

/-- Squared euclidean norm; np.linalg.norm v = S.f (normSq v). -/
def normSq (v : List ℚ) : ℚ := dotp v v

/-- A search result (dataclass SearchResult). -/
structure SearchResult where
  item_id : Nat
  item_type : String
  content : ItemData
  similarity_score : ℚ
  phase_name : Option String
  timestamp : Option String
deriving DecidableEq

/-- The candidate loop inside semantic_search: deserialize each stored blob
(raising on a bad byte length), skip shape mismatches, score by cosine
similarity where a zero denominator yields float NaN (modelled by the
denom = 0 branch, since NaN fails the >= test), hydrate rows that pass the
threshold, silently drop candidates whose source row is gone, and collect
results in scan order. -/
def scanRows (S : SqrtModel) (J : JsonModel) (db : DB) (q : List ℚ) (minSim : ℚ) :
    List EmbeddingRow → Except PyError (List SearchResult)
  | [] => .ok []
  | r :: rs => do
    let emb ← frombuffer r.embedding
    if emb.length = q.length then
      let denom := S.f (normSq q) * S.f (normSq emb)
      if denom = 0 then
        scanRows S J db q minSim rs
      else
        let sim := dotp q emb / denom
        if minSim ≤ sim then do
          let od ← getFullItemData J db r.item_type r.item_id
          let rest ← scanRows S J db q minSim rs
          match od with
          | none => pure rest
          | some item =>
            pure ({ item_id := r.item_id, item_type := r.item_type,
                    content := item, similarity_score := sim,
                    phase_name := some item.phaseName,
                    timestamp := some item.tstamp } :: rest)
        else scanRows S J db q minSim rs
    else scanRows S J db q minSim rs

/-- Ordering used by results.sort(key=similarity_score, reverse=True):
descending by similarity score.  The Python sort is stable; a stable sort
with respect to a total preorder is unique, so it is modelled by
List.insertionSort with this relation. -/
def simGE (a b : SearchResult) : Prop := b.similarity_score ≤ a.similarity_score

instance : DecidableRel simGE :=
  fun a b => inferInstanceAs (Decidable (b.similarity_score ≤ a.similarity_score))

instance : IsTotal SearchResult simGE :=
  ⟨fun a b => le_total b.similarity_score a.similarity_score⟩

instance : IsTrans SearchResult simGE :=
  ⟨fun _ _ _ h1 h2 => le_trans h2 h1⟩

/-- Exception wrapping of the try/except in semantic_search: a
sqlite3.DatabaseError becomes SemanticSearchError, everything else
propagates unchanged. -/
def wrapSearchErr : PyError → SearchFailure
  | .databaseError => .semanticSearchError
  | e => .unhandled e

/-- EnhancedSPARCSearch.semantic_search, generic in the outcome of the
query-embedding call and of the SQL fetch of stored rows (so that failures
of either step can be stated); filter_item_types is applied in Python only
when the list is truthy, i.e. nonempty. -/
def semanticSearchGen (S : SqrtModel) (J : JsonModel) (db : DB)
    (encodeQuery : Except PyError (List ℚ))
    (fetch : Except PyError (List EmbeddingRow))
    (top_k : Nat) (filter_item_types : List String) (minSim : ℚ) :
    Except SearchFailure (List SearchResult) :=
  match encodeQuery with
  | .error e => .error (wrapSearchErr e)
  | .ok q =>
    match fetch with
    | .error e => .error (wrapSearchErr e)
    | .ok rows =>
      let rows := if filter_item_types.isEmpty then rows
        else rows.filter (fun r => filter_item_types.contains r.item_type)
      match scanRows S J db q minSim rows with
      | .error e => .error (wrapSearchErr e)
      | .ok results => .ok ((List.insertionSort simGE results).take top_k)

/-- EnhancedSPARCSearch.semantic_search proper: the SQL restricts rows to
embedding_model = provider.name, then the loop runs over the fetched rows. -/
def semantic_search (S : SqrtModel) (J : JsonModel) (p : Provider) (db : DB)
    (query : String) (top_k : Nat) (filter_item_types : List String) (minSim : ℚ) :
    Except SearchFailure (List SearchResult) :=
  semanticSearchGen S J db (p.encode1 query)
    (.ok (db.item_embeddings.filter (fun r => r.embedding_model == p.name)))
    top_k filter_item_types minSim

/-- Whether an embeddings row has the given (item_type, item_id,
embedding_model) key. -/
def matchesKey (t : String) (i : Nat) (m : String) (r : EmbeddingRow) : Bool :=
  r.item_type == t && r.item_id == i && r.embedding_model == m

/-- INSERT OR REPLACE into item_embeddings keyed by the UNIQUE constraint:
the conflicting row is deleted and the fresh row gets a new rowid, hence is
appended at the end. -/
def upsertEmbedding (db : DB) (row : EmbeddingRow) : DB :=
  { db with item_embeddings :=
      (db.item_embeddings.filter
        (fun r => !(matchesKey row.item_type row.item_id row.embedding_model r))) ++ [row] }

/-- SELECT id FROM each table when item_ids is falsy; none for an unknown
item_type, where update_embeddings plainly returns. -/
def allIdsOf (db : DB) (item_type : String) : Option (List Nat) :=
  if item_type = "decisions" then some (db.decisions.map (fun r => r.id))
  else if item_type = "progress" then some (db.progress.map (fun r => r.id))
  else if item_type = "system_patterns" then some (db.system_patterns.map (fun r => r.id))
  else if item_type = "custom_data" then some (db.custom_data.map (fun r => r.id))
  else none

/-- The loop collecting (id, text) pairs in update_embeddings, skipping ids
whose extraction yields None and empty strings (Python truthiness of the
extracted text). -/
def collectTexts (J : JsonModel) (db : DB) (item_type : String) :
    List Nat → List (Nat × String)
  | [] => []
  | i :: is =>
    match getItemTextContent J db item_type i with
    | some t =>
      if t = "" then collectTexts J db item_type is
      else (i, t) :: collectTexts J db item_type is
    | none => collectTexts J db item_type is

/-- The write loop of update_embeddings: one INSERT OR REPLACE per (id,
text, vector), in order.  A vector serializes to a blob of exactly
8 * length bytes (tobytes), so extra = 0. -/
def writeEmbeddings (db : DB) (item_type pname ts : String) :
    List (Nat × String) → List (List ℚ) → DB
  | [], _ => db
  | _ :: _, [] => db
  | (i, t) :: ps, v :: vs =>
    writeEmbeddings
      (upsertEmbedding db
        { item_type := item_type, item_id := i, embedding := ⟨v, 0⟩,
          text_content := t, embedding_model := pname, created_at := ts })
      item_type pname ts ps vs

/-- The encode-then-store tail of update_embeddings, once the (id, text)
pairs are collected: plain return on no texts, batch-encode, then one
INSERT OR REPLACE per item.  A provider returning fewer vectors than texts
makes embeddings[i] raise IndexError before conn.commit() is reached, so no
write becomes durable; that branch is modelled as an error with the
database unchanged. -/
def updateWithPairs (p : Provider) (db : DB) (item_type ts : String)
    (pairs : List (Nat × String)) : Except PyError DB :=
  if pairs.isEmpty then .ok db
  else
    match p.encodeB (pairs.map Prod.snd) with
    | .error e => .error e
    | .ok embeddings =>
      if embeddings.length < pairs.length then .error .indexError
      else .ok (writeEmbeddings db item_type p.name ts pairs embeddings)

/-- EnhancedSPARCSearch.update_embeddings (sparc-server version): select the
ids (the given list when truthy, else all ids of the kind, with a plain
return for an unknown kind), collect truthy texts, batch-encode them, and
upsert one row per item.  The timestamp ts stands for datetime.utcnow of
the call. -/
def update_embeddings (J : JsonModel) (p : Provider) (db : DB) (item_type : String)
    (item_ids : List Nat) (ts : String) : Except PyError DB :=
  match (if item_ids.isEmpty then allIdsOf db item_type else some item_ids) with
  | none => .ok db
  | some ids => updateWithPairs p db item_type ts (collectTexts J db item_type ids)

/-- EnhancedSPARCSearch.rebuild_all_embeddings: refresh every kind in the
fixed order; the sparc-server version has no per-kind exception handling, so
the first failure propagates. -/
def rebuild_all_embeddings (J : JsonModel) (p : Provider) (db : DB) (ts : String) :
    Except PyError DB :=
  match update_embeddings J p db "decisions" [] ts with
  | .error e => .error e
  | .ok db1 =>
    match update_embeddings J p db1 "progress" [] ts with
    | .error e => .error e
    | .ok db2 =>
      match update_embeddings J p db2 "system_patterns" [] ts with
      | .error e => .error e
      | .ok db3 => update_embeddings J p db3 "custom_data" [] ts

/-- Fresh AUTOINCREMENT id for decisions (no deletes occur in the modelled
scenarios, so max-plus-one matches sqlite). -/
def nextDecisionId (db : DB) : Nat := (db.decisions.map (fun r => r.id)).foldr max 0 + 1

/-- Fresh AUTOINCREMENT id for progress. -/
def nextProgressId (db : DB) : Nat := (db.progress.map (fun r => r.id)).foldr max 0 + 1

/-- Fresh AUTOINCREMENT id for system_patterns. -/
def nextPatternId (db : DB) : Nat := (db.system_patterns.map (fun r => r.id)).foldr max 0 + 1

/-- Fresh AUTOINCREMENT id for custom_data. -/
def nextCustomId (db : DB) : Nat := (db.custom_data.map (fun r => r.id)).foldr max 0 + 1

/-- ContextPortalSPARCServer.log_decision: tags are comma-joined; the
timestamp and the current phase are supplied by the environment
(_current_timestamp and the phases table, which is out of scope here). -/
def log_decision (db : DB) (summary rationale : String) (tags : List String)
    (ts phase : String) : Nat × DB :=
  let i := nextDecisionId db
  (i, { db with decisions :=
        db.decisions ++ [⟨i, summary, rationale, String.intercalate "," tags, ts, phase⟩] })

/-- ContextPortalSPARCServer.log_progress. -/
def log_progress (db : DB) (description status : String) (parent_id : Option Int)
    (ts phase : String) : Nat × DB :=
  let i := nextProgressId db
  (i, { db with progress := db.progress ++ [⟨i, description, status, ts, parent_id, phase⟩] })

/-- ContextPortalSPARCServer.log_system_pattern. -/
def log_system_pattern (db : DB) (name description : String) (tags : List String)
    (ts phase : String) : Nat × DB :=
  let i := nextPatternId db
  (i, { db with system_patterns :=
        db.system_patterns ++ [⟨i, name, description, String.intercalate "," tags, ts, phase⟩] })

/-- ContextPortalSPARCServer.log_custom_data: the value is stored as
json.dumps(value). -/
def log_custom_data (J : JsonModel) (db : DB) (category key : String) (value : PyVal)
    (ts phase : String) : Nat × DB :=
  let i := nextCustomId db
  (i, { db with custom_data :=
        db.custom_data ++ [⟨i, category, key, J.dumps value, ts, phase⟩] })

/-- EnhancedContextPortalSPARCServer hook around log_decision: log, then
synchronously refresh that id before returning. -/
def hooked_log_decision (J : JsonModel) (p : Provider) (db : DB)
    (summary rationale : String) (tags : List String) (ts phase : String) :
    Except PyError (Nat × DB) :=
  let (i, db1) := log_decision db summary rationale tags ts phase
  match update_embeddings J p db1 "decisions" [i] ts with
  | .error e => .error e
  | .ok db2 => .ok (i, db2)

/-- EnhancedContextPortalSPARCServer hook around log_progress. -/
def hooked_log_progress (J : JsonModel) (p : Provider) (db : DB)
    (description status : String) (parent_id : Option Int) (ts phase : String) :
    Except PyError (Nat × DB) :=
  let (i, db1) := log_progress db description status parent_id ts phase
  match update_embeddings J p db1 "progress" [i] ts with
  | .error e => .error e
  | .ok db2 => .ok (i, db2)

/-- EnhancedContextPortalSPARCServer hook around log_system_pattern. -/
def hooked_log_system_pattern (J : JsonModel) (p : Provider) (db : DB)
    (name description : String) (tags : List String) (ts phase : String) :
    Except PyError (Nat × DB) :=
  let (i, db1) := log_system_pattern db name description tags ts phase
  match update_embeddings J p db1 "system_patterns" [i] ts with
  | .error e => .error e
  | .ok db2 => .ok (i, db2)

/-- EnhancedContextPortalSPARCServer hook around log_custom_data. -/
def hooked_log_custom_data (J : JsonModel) (p : Provider) (db : DB)
    (category key : String) (value : PyVal) (ts phase : String) :
    Except PyError (Nat × DB) :=
  let (i, db1) := log_custom_data J db category key value ts phase
  match update_embeddings J p db1 "custom_data" [i] ts with
  | .error e => .error e
  | .ok db2 => .ok (i, db2)

/-- Error outcomes of ContextPortalSPARCServer.update_progress. -/
inductive UpdateProgressError where
  | valueError
  | databaseUpdateError
deriving DecidableEq

/-- The single UPDATE statement of update_progress applied to one row: each
provided field is set, the others keep their value. -/
def applyProgressUpdate (r : ProgressRow) (status? description? : Option String)
    (parent? : Option Int) : ProgressRow :=
  { r with status := status?.getD r.status,
           description := description?.getD r.description,
           parent_id := match parent? with | some p => some p | none => r.parent_id }

/-- ContextPortalSPARCServer.update_progress: raises ValueError when no
field is provided (before any database access), raises DatabaseUpdateError
when the row does not exist, and otherwise applies one UPDATE inside a
transaction (with self._conn), so error outcomes leave the database
unchanged and the update commits all requested fields at once. -/
def update_progress (db : DB) (progress_id : Nat) (status? description? : Option String)
    (parent? : Option Int) : Except UpdateProgressError DB :=
  if status?.isNone && description?.isNone && parent?.isNone then
    .error .valueError
  else if (db.progress.find? (fun r => r.id == progress_id)).isNone then
    .error .databaseUpdateError
  else
    .ok { db with progress := db.progress.map (fun r =>
      if r.id == progress_id then applyProgressUpdate r status? description? parent? else r) }

/-- Spec 4.3, the rendered value of a stored custom datum, written from the
words of the spec: the value re-rendered as a string; if the stored value is
itself a JSON-encoded string, unwrap it; if parsing fails, fall back to the
raw stored text verbatim; a non-string JSON value is re-serialized. -/
def renderedValue (J : JsonModel) (raw : String) : String :=
  match J.loads raw with
  | none => raw
  | some (PyVal.pstr s) => s
  | some v => J.dumps v

/-- Spec 4.3 TextExtractor, written from the words of the spec: Decision
yields summary dot-space rationale, Progress yields its description, Pattern
yields name dot-space description, CustomDatum yields category slash key
colon renderedValue, an unknown kind yields no text, and extraction never
fails. -/
def textExtractSpec (J : JsonModel) (db : DB) (kind : String) (id : Nat) : Option String :=
  if kind = "decisions" then
    (db.decisions.find? (fun r => r.id == id)).map
      (fun r => r.summary ++ ". " ++ r.rationale)
  else if kind = "progress" then
    (db.progress.find? (fun r => r.id == id)).map (fun r => r.description)
  else if kind = "system_patterns" then
    (db.system_patterns.find? (fun r => r.id == id)).map
      (fun r => r.name ++ ". " ++ r.description)
  else if kind = "custom_data" then
    (db.custom_data.find? (fun r => r.id == id)).map
      (fun r => r.category ++ "/" ++ r.key ++ ": " ++ renderedValue J r.value)
  else none

/-- Looks up the stored embeddings row for a key, in rowid order. -/
def lookupEmb (db : DB) (t : String) (i : Nat) (m : String) : Option EmbeddingRow :=
  db.item_embeddings.find? (matchesKey t i m)

/-- Number of stored embeddings rows for a key. -/
def countKey (db : DB) (t : String) (i : Nat) (m : String) : Nat :=
  (db.item_embeddings.filter (matchesKey t i m)).length

/-- The invariant of the UNIQUE(item_type, item_id, embedding_model)
constraint: no two rows share a key. -/
def UniqEmb (l : List EmbeddingRow) : Prop :=
  l.Pairwise (fun a b =>
    ¬(a.item_type = b.item_type ∧ a.item_id = b.item_id ∧
      a.embedding_model = b.embedding_model))

/-- Concrete square-root stand-in for witnesses: the identity function has
the one assumed property. -/
def sqrtId : SqrtModel := ⟨fun x => x, fun _ _ => Iff.rfl⟩

/-- Concrete JSON stand-in for witnesses: every text parses to itself as a
JSON string. -/
def jsonId : JsonModel :=
  ⟨fun s => some (PyVal.pstr s),
   fun v => match v with | .pstr s => s | .pother o => o⟩

/-- Deterministic test provider encoding every text to the vector [1]. -/
def provOne : Provider := ⟨"tfidf", fun ts => .ok (ts.map (fun _ => [1]))⟩

/-- Test provider whose encode always raises. -/
def provFail : Provider := ⟨"tfidf", fun _ => .error .providerError⟩

/-- Test provider encoding every text to the zero vector of dimension 2. -/
def provZero : Provider := ⟨"tfidf", fun ts => .ok (ts.map (fun _ => [0, 0]))⟩

/-- The empty database, as created by _ensure_tables and
_setup_vector_tables on a fresh workspace. -/
def dbEmpty : DB := ⟨[], [], [], [], []⟩

/-- One unfolding step of the scan loop, with the do-notation spelled out as
binds. -/
theorem scanRows_cons (S : SqrtModel) (J : JsonModel) (db : DB) (q : List ℚ) (minSim : ℚ)
    (r : EmbeddingRow) (rs : List EmbeddingRow) :
    scanRows S J db q minSim (r :: rs) =
      (frombuffer r.embedding).bind (fun emb =>
        if emb.length = q.length then
          if S.f (normSq q) * S.f (normSq emb) = 0 then scanRows S J db q minSim rs
          else
            if minSim ≤ dotp q emb / (S.f (normSq q) * S.f (normSq emb)) then
              (getFullItemData J db r.item_type r.item_id).bind (fun od =>
                (scanRows S J db q minSim rs).bind (fun rest =>
                  match od with
                  | none => .ok rest
                  | some item =>
                    .ok ({ item_id := r.item_id, item_type := r.item_type,
                           content := item,
                           similarity_score :=
                             dotp q emb / (S.f (normSq q) * S.f (normSq emb)),
                           phase_name := some item.phaseName,
                           timestamp := some item.tstamp } :: rest)))
            else scanRows S J db q minSim rs
        else scanRows S J db q minSim rs) := rfl

/-- Every result of a successful scan stems from one of the scanned rows and
was hydrated from a live source row. -/
theorem scanRows_ok_mem (S : SqrtModel) (J : JsonModel) (db : DB) (q : List ℚ) (minSim : ℚ) :
    ∀ (rows : List EmbeddingRow) (res : List SearchResult),
      scanRows S J db q minSim rows = .ok res →
      ∀ sr ∈ res, ∃ row ∈ rows, row.item_type = sr.item_type ∧ row.item_id = sr.item_id ∧
        ∃ d, getFullItemData J db row.item_type row.item_id = .ok (some d) ∧
          sr.content = d := by
  intro rows
  induction rows with
  | nil =>
    intro res h sr hsr
    rw [show scanRows S J db q minSim [] = .ok [] from rfl] at h
    injection h with h
    subst h
    cases hsr
  | cons r rs ih =>
    intro res h sr hsr
    rw [scanRows_cons] at h
    cases hfb : frombuffer r.embedding with
    | error e => rw [hfb] at h; cases h
    | ok emb =>
      rw [hfb] at h
      simp only [Except.bind] at h
      split_ifs at h with hl hd hs
      · obtain ⟨row, hrow, hrest⟩ := ih res h sr hsr
        exact ⟨row, List.mem_cons_of_mem _ hrow, hrest⟩
      · cases hfd : getFullItemData J db r.item_type r.item_id with
        | error e => rw [hfd] at h; cases h
        | ok od =>
          rw [hfd] at h
          simp only [Except.bind] at h
          cases hrec : scanRows S J db q minSim rs with
          | error e => rw [hrec] at h; cases h
          | ok rest =>
            rw [hrec] at h
            cases od with
            | none =>
              injection h with h
              subst h
              obtain ⟨row, hrow, hrest⟩ := ih rest hrec sr hsr
              exact ⟨row, List.mem_cons_of_mem _ hrow, hrest⟩
            | some item =>
              injection h with h
              subst h
              rcases List.mem_cons.mp hsr with heq | hmem
              · subst heq
                exact ⟨r, List.mem_cons_self _ _, rfl, rfl, item, hfd, rfl⟩
              · obtain ⟨row, hrow, hrest⟩ := ih rest hrec sr hmem
                exact ⟨row, List.mem_cons_of_mem _ hrow, hrest⟩
      · obtain ⟨row, hrow, hrest⟩ := ih res h sr hsr
        exact ⟨row, List.mem_cons_of_mem _ hrow, hrest⟩
      · obtain ⟨row, hrow, hrest⟩ := ih res h sr hsr
        exact ⟨row, List.mem_cons_of_mem _ hrow, hrest⟩

/-- Dissects a successful semantic_search run into its stages: query
encoding, the scan over the model-filtered (and type-filtered) rows, and
the final stable sort plus truncation. -/
theorem semantic_search_ok_elim (S : SqrtModel) (J : JsonModel) (p : Provider) (db : DB)
    (query : String) (top_k : Nat) (filt : List String) (minSim : ℚ)
    (res : List SearchResult)
    (h : semantic_search S J p db query top_k filt minSim = .ok res) :
    ∃ q results,
      p.encode1 query = .ok q ∧
      scanRows S J db q minSim
        (if filt.isEmpty then
          db.item_embeddings.filter (fun r => r.embedding_model == p.name)
        else
          (db.item_embeddings.filter (fun r => r.embedding_model == p.name)).filter
            (fun r => filt.contains r.item_type)) = .ok results ∧
      res = (List.insertionSort simGE results).take top_k := by
  unfold semantic_search semanticSearchGen at h
  cases henc : p.encode1 query with
  | error e => rw [henc] at h; cases h
  | ok q =>
    rw [henc] at h
    simp only [Except.bind] at h
    cases hscan : scanRows S J db q minSim
        (if filt.isEmpty then
          db.item_embeddings.filter (fun r => r.embedding_model == p.name)
        else
          (db.item_embeddings.filter (fun r => r.embedding_model == p.name)).filter
            (fun r => filt.contains r.item_type)) with
    | error e => rw [hscan] at h; cases h
    | ok results =>
      rw [hscan] at h
      injection h with h
      exact ⟨q, results, rfl, hscan, h.symm⟩

/-- writeEmbeddings never touches the four source tables. -/
theorem writeEmbeddings_sources (item_type pname ts : String) :
    ∀ (ps : List (Nat × String)) (vs : List (List ℚ)) (db : DB),
      (writeEmbeddings db item_type pname ts ps vs).decisions = db.decisions ∧
      (writeEmbeddings db item_type pname ts ps vs).progress = db.progress ∧
      (writeEmbeddings db item_type pname ts ps vs).system_patterns = db.system_patterns ∧
      (writeEmbeddings db item_type pname ts ps vs).custom_data = db.custom_data := by
  intro ps
  induction ps with
  | nil => intro vs db; exact ⟨rfl, rfl, rfl, rfl⟩
  | cons pr ps ih =>
    intro vs db
    cases vs with
    | nil => exact ⟨rfl, rfl, rfl, rfl⟩
    | cons v vs =>
      cases pr with
      | mk i t => exact ih vs _

/-- update_embeddings never touches the four source tables. -/
theorem update_embeddings_sources (J : JsonModel) (p : Provider) (db : DB)
    (kind : String) (ids : List Nat) (ts : String) (db2 : DB)
    (h : update_embeddings J p db kind ids ts = .ok db2) :
    db2.decisions = db.decisions ∧ db2.progress = db.progress ∧
    db2.system_patterns = db.system_patterns ∧ db2.custom_data = db.custom_data := by
  unfold update_embeddings at h
  cases hids : (if ids.isEmpty then allIdsOf db kind else some ids) with
  | none =>
    rw [hids] at h
    injection h with h
    subst h
    exact ⟨rfl, rfl, rfl, rfl⟩
  | some l =>
    rw [hids] at h
    dsimp only at h
    unfold updateWithPairs at h
    by_cases hp : (collectTexts J db kind l).isEmpty
    · rw [if_pos hp] at h
      injection h with h
      subst h
      exact ⟨rfl, rfl, rfl, rfl⟩
    · rw [if_neg hp] at h
      cases he : p.encodeB ((collectTexts J db kind l).map Prod.snd) with
      | error e => rw [he] at h; cases h
      | ok embs =>
        rw [he] at h
        dsimp only at h
        split_ifs at h with hlen
        injection h with h
        subst h
        exact writeEmbeddings_sources kind p.name ts _ _ db

/-- Text extraction only reads the four source tables. -/
theorem getItemTextContent_sources (J : JsonModel) (dbA dbB : DB) (kind : String) (i : Nat)
    (h1 : dbA.decisions = dbB.decisions) (h2 : dbA.progress = dbB.progress)
    (h3 : dbA.system_patterns = dbB.system_patterns)
    (h4 : dbA.custom_data = dbB.custom_data) :
    getItemTextContent J dbA kind i = getItemTextContent J dbB kind i := by
  unfold getItemTextContent
  rw [h1, h2, h3, h4]

/-- A single-id refresh whose extraction yields truthy text t and whose
encoding yields one vector v performs exactly one upsert of the fresh row. -/
theorem update_embeddings_single (J : JsonModel) (p : Provider) (db : DB)
    (kind : String) (i : Nat) (ts t : String) (v : List ℚ) (db2 : DB)
    (ht : getItemTextContent J db kind i = some t) (hne : t ≠ "")
    (he : p.encodeB [t] = .ok [v])
    (h : update_embeddings J p db kind [i] ts = .ok db2) :
    db2 = upsertEmbedding db ⟨kind, i, ⟨v, 0⟩, t, p.name, ts⟩ := by
  unfold update_embeddings at h
  have hpairs : collectTexts J db kind [i] = [(i, t)] := by
    unfold collectTexts
    rw [ht]
    dsimp only
    rw [if_neg hne]
    rfl
  rw [show (if (List.isEmpty [i]) then allIdsOf db kind else some [i]) = some [i]
    from rfl] at h
  dsimp only at h
  unfold updateWithPairs at h
  rw [hpairs] at h
  norm_num at h
  rw [he] at h
  norm_num at h
  exact h.symm

/-- Unfolds the key predicate into a conjunction of field equalities. -/
theorem matchesKey_true_iff (t : String) (i : Nat) (m : String) (r : EmbeddingRow) :
    matchesKey t i m r = true ↔
      (r.item_type = t ∧ r.item_id = i ∧ r.embedding_model = m) := by
  unfold matchesKey
  simp [Bool.and_assoc]

/-- INSERT OR REPLACE preserves the uniqueness invariant of the table. -/
theorem uniq_upsert (db : DB) (row : EmbeddingRow) (h : UniqEmb db.item_embeddings) :
    UniqEmb (upsertEmbedding db row).item_embeddings := by
  unfold UniqEmb upsertEmbedding
  rw [List.pairwise_append]
  refine ⟨h.filter _, List.pairwise_singleton _ _, ?_⟩
  intro a ha b hb
  rw [List.mem_singleton] at hb
  subst hb
  obtain ⟨-, hpa⟩ := List.mem_filter.mp ha
  intro hk
  simp only [Bool.not_eq_true'] at hpa
  exact absurd ((matchesKey_true_iff _ _ _ _).mpr hk) (by simp [hpa])

/-- The write loop preserves the uniqueness invariant. -/
theorem writeEmbeddings_uniq (item_type pname ts : String) :
    ∀ (ps : List (Nat × String)) (vs : List (List ℚ)) (db : DB),
      UniqEmb db.item_embeddings →
      UniqEmb (writeEmbeddings db item_type pname ts ps vs).item_embeddings := by
  intro ps
  induction ps with
  | nil => intro vs db h; exact h
  | cons pr ps ih =>
    intro vs db h
    cases vs with
    | nil => exact h
    | cons v vs =>
      cases pr with
      | mk i t => exact ih vs _ (uniq_upsert db _ h)

/-- update_embeddings preserves the uniqueness invariant. -/
theorem update_embeddings_uniq (J : JsonModel) (p : Provider) (db : DB)
    (kind : String) (ids : List Nat) (ts : String) (db2 : DB)
    (h : update_embeddings J p db kind ids ts = .ok db2)
    (hu : UniqEmb db.item_embeddings) : UniqEmb db2.item_embeddings := by
  unfold update_embeddings at h
  cases hids : (if ids.isEmpty then allIdsOf db kind else some ids) with
  | none =>
    rw [hids] at h
    injection h with h
    subst h
    exact hu
  | some l =>
    rw [hids] at h
    dsimp only at h
    unfold updateWithPairs at h
    by_cases hp : (collectTexts J db kind l).isEmpty
    · rw [if_pos hp] at h
      injection h with h
      subst h
      exact hu
    · rw [if_neg hp] at h
      cases he : p.encodeB ((collectTexts J db kind l).map Prod.snd) with
      | error e => rw [he] at h; cases h
      | ok embs =>
        rw [he] at h
        dsimp only at h
        split_ifs at h with hlen
        injection h with h
        subst h
        exact writeEmbeddings_uniq kind p.name ts _ _ db hu

/-- rebuild_all_embeddings preserves the uniqueness invariant. -/
theorem rebuild_uniq (J : JsonModel) (p : Provider) (db : DB) (ts : String) (db2 : DB)
    (h : rebuild_all_embeddings J p db ts = .ok db2)
    (hu : UniqEmb db.item_embeddings) : UniqEmb db2.item_embeddings := by
  unfold rebuild_all_embeddings at h
  cases h1 : update_embeddings J p db "decisions" [] ts with
  | error e => rw [h1] at h; cases h
  | ok dbA =>
    rw [h1] at h
    dsimp only at h
    cases h2 : update_embeddings J p dbA "progress" [] ts with
    | error e => rw [h2] at h; cases h
    | ok dbB =>
      rw [h2] at h
      dsimp only at h
      cases h3 : update_embeddings J p dbB "system_patterns" [] ts with
      | error e => rw [h3] at h; cases h
      | ok dbC =>
        rw [h3] at h
        dsimp only at h
        exact update_embeddings_uniq J p dbC "custom_data" [] ts db2 h
          (update_embeddings_uniq J p dbB "system_patterns" [] ts dbC h3
            (update_embeddings_uniq J p dbA "progress" [] ts dbB h2
              (update_embeddings_uniq J p db "decisions" [] ts dbA h1 hu)))

/-- After an upsert, looking the key up returns exactly the fresh row. -/
theorem lookup_upsert (db : DB) (row : EmbeddingRow) :
    lookupEmb (upsertEmbedding db row) row.item_type row.item_id row.embedding_model =
      some row := by
  unfold lookupEmb upsertEmbedding
  rw [List.find?_append]
  have h1 : (db.item_embeddings.filter
      (fun r => !(matchesKey row.item_type row.item_id row.embedding_model r))).find?
        (matchesKey row.item_type row.item_id row.embedding_model) = none := by
    rw [List.find?_eq_none]
    intro x hx
    obtain ⟨-, hpx⟩ := List.mem_filter.mp hx
    rw [Bool.not_eq_true'] at hpx
    simp [hpx]
  rw [h1]
  have h2 : matchesKey row.item_type row.item_id row.embedding_model row = true := by
    simp [matchesKey]
  simp [List.find?, h2]

/-- After an upsert, the key owns exactly one row. -/
theorem countKey_upsert_one (db : DB) (row : EmbeddingRow) :
    countKey (upsertEmbedding db row) row.item_type row.item_id row.embedding_model = 1 := by
  unfold countKey upsertEmbedding
  rw [List.filter_append]
  have h1 : (db.item_embeddings.filter
      (fun r => !(matchesKey row.item_type row.item_id row.embedding_model r))).filter
        (matchesKey row.item_type row.item_id row.embedding_model) = [] := by
    rw [List.filter_eq_nil_iff]
    intro a ha
    obtain ⟨-, hpa⟩ := List.mem_filter.mp ha
    rw [Bool.not_eq_true'] at hpa
    simp [hpa]
  have h2 : matchesKey row.item_type row.item_id row.embedding_model row = true := by
    simp [matchesKey]
  rw [h1]
  simp [List.filter, h2]

/-- Common core of the four write hooks: log the record, refresh the fresh
id synchronously, and the stored row for that id is exactly the encoding of
its current text. -/
theorem hookRefresh (J : JsonModel) (p : Provider) (db1 : DB) (kind : String) (ID : Nat)
    (ts : String) (i : Nat) (db2 : DB) (t : String) (v : List ℚ)
    (hh : (match update_embeddings J p db1 kind [ID] ts with
           | .error e => .error e
           | .ok d => .ok (ID, d)) = Except.ok (i, db2))
    (ht2 : getItemTextContent J db2 kind i = some t) (hne : t ≠ "")
    (he : p.encodeB [t] = .ok [v]) :
    lookupEmb db2 kind i p.name = some ⟨kind, i, ⟨v, 0⟩, t, p.name, ts⟩ := by
  cases hu : update_embeddings J p db1 kind [ID] ts with
  | error e => rw [hu] at hh; cases hh
  | ok dbX =>
    rw [hu] at hh
    injection hh with hh
    obtain ⟨h1, h2⟩ := Prod.mk.injEq .. |>.mp hh
    subst h1
    subst h2
    have hsrc := update_embeddings_sources J p db1 kind [ID] ts dbX hu
    have ht1 : getItemTextContent J db1 kind ID = some t := by
      rw [← getItemTextContent_sources J dbX db1 kind ID hsrc.1 hsrc.2.1 hsrc.2.2.1
        hsrc.2.2.2]
      exact ht2
    have hd := update_embeddings_single J p db1 kind ID ts t v dbX ht1 hne he hu
    rw [hd]
    exact lookup_upsert db1 ⟨kind, ID, ⟨v, 0⟩, t, p.name, ts⟩

/-- Database with one decision and a stored zero vector of dimension 2, as
in the repository test for zero-magnitude vectors. -/
def dbC1 : DB :=
  { decisions := [⟨1, "s", "r", "", "t", "p"⟩],
    progress := [], system_patterns := [], custom_data := [],
    item_embeddings := [⟨"decisions", 1, ⟨[0, 0], 0⟩, "text", "tfidf", "now"⟩] }

/-- Database with one stored blob of 9 bytes (one double plus one stray
byte), whose byte length is not a multiple of 8. -/
def dbC2 : DB :=
  { decisions := [⟨1, "s", "r", "", "t", "p"⟩],
    progress := [], system_patterns := [], custom_data := [],
    item_embeddings := [⟨"decisions", 1, ⟨[1], 1⟩, "text", "tfidf", "now"⟩] }

/-- Database with two decisions bearing distinct timestamps whose stored
vectors are identical, so both score the same similarity; the row of the
older decision comes first in rowid order. -/
def dbC3 : DB :=
  { decisions := [⟨1, "a", "b", "", "2020-01-01T00:00:00Z", "p"⟩,
                  ⟨2, "c", "d", "", "2021-01-01T00:00:00Z", "p"⟩],
    progress := [], system_patterns := [], custom_data := [],
    item_embeddings := [⟨"decisions", 1, ⟨[1], 0⟩, "t1", "tfidf", "n1"⟩,
                        ⟨"decisions", 2, ⟨[1], 0⟩, "t2", "tfidf", "n2"⟩] }

/-- Run on the enhanced server: hook-log a progress item with description
old, then change its description to new through update_progress, and report
the current extracted text next to the text the stored embedding row was
computed from. -/
def c4chain : Option (Option String × Option String) :=
  match hooked_log_progress jsonId provOne dbEmpty "old" "st" none "t1" "ph" with
  | .ok (i, db1) =>
    match update_progress db1 i none (some "new") none with
    | .ok db2 =>
      some (getItemTextContent jsonId db2 "progress" i,
        (lookupEmb db2 "progress" i "tfidf").map (fun r => r.text_content))
    | .error _ => none
  | .error _ => none

/-- The state produced by the hooked log_progress call of c4chain. -/
def c4db1 : DB :=
  ⟨[], [⟨1, "old", "st", "t1", none, "ph"⟩], [], [],
   [⟨"progress", 1, ⟨[1], 0⟩, "old", "tfidf", "t1"⟩]⟩

/-- Database with a single progress row and no embeddings. -/
def dbP : DB := ⟨[], [⟨1, "old", "st", "t0", none, "ph"⟩], [], [], []⟩

/-- dbP after one single-id refresh at time t1. -/
def c5db1 : DB :=
  ⟨[], [⟨1, "old", "st", "t0", none, "ph"⟩], [], [],
   [⟨"progress", 1, ⟨[1], 0⟩, "old", "tfidf", "t1"⟩]⟩

/-- dbP after a second single-id refresh at time t2. -/
def c5db2 : DB :=
  ⟨[], [⟨1, "old", "st", "t0", none, "ph"⟩], [], [],
   [⟨"progress", 1, ⟨[1], 0⟩, "old", "tfidf", "t2"⟩]⟩

/-- dbP after update_progress sets the status of row 1 to done. -/
def dbPupd : DB := ⟨[], [⟨1, "old", "done", "t0", none, "ph"⟩], [], [], []⟩

/-- Database with one decision and its stored unit vector. -/
def dbW : DB := ⟨[⟨1, "s", "r", "", "t", "p"⟩], [], [], [],
  [⟨"decisions", 1, ⟨[1], 0⟩, "tx", "tfidf", "n"⟩]⟩

/-- The single search result produced on dbW by the unit-vector provider. -/
def resW : SearchResult :=
  ⟨1, "decisions", .dec ⟨1, "s", "r", "", "t", "p"⟩, 1, some "p", some "t"⟩

/-- Database holding a stored embedding row whose source decision row has
been deleted. -/
def dbOrphan : DB := ⟨[], [], [], [], [⟨"decisions", 1, ⟨[1], 0⟩, "tx", "tfidf", "n"⟩]⟩

/-- C1: the claim states that a zero-magnitude query or candidate vector is
scored with similarity 0 and a diagnostic is logged.  Evaluating
semantic_search at the failing input of the repository test (zero query
vector, stored zero vector of dimension 2, top_k 1, min_similarity 0)
shows the code instead computes 0.0/0.0, which is float NaN, fails the
threshold test, drops the candidate, logs nothing, and returns the empty
list, whereas a similarity defined as 0 would have passed the threshold 0
and produced a result. -/
theorem c1_zero_vector_dropped :
    semantic_search sqrtId jsonId provZero dbC1 "q" 1 [] 0 = .ok [] := by
  norm_num [semantic_search, semanticSearchGen, Provider.encode1, provZero, scanRows,
    frombuffer, getFullItemData, getItemTextContent, dotp, normSq, sqrtId, jsonId, dbC1,
    wrapSearchErr, Except.instMonad, Except.bind, Except.map, Except.pure,
    List.insertionSort]

/-- C2 counterexample: a stored embedding blob whose byte length is not a
multiple of 8 is not skipped; np.frombuffer raises ValueError, which is not
a sqlite error and therefore propagates out of semantic_search, and no
count of skipped rows exists anywhere in the code. -/
theorem c2_malformed_blob_raises :
    semantic_search sqrtId jsonId provOne dbC2 "q" 5 [] 0 =
      .error (.unhandled .valueError) := by rfl

/-- C2 amended: a stored row whose byte length is a multiple of 8 but whose
deserialized element count differs from the query dimension is skipped
silently during the scan, without raising and without any count of skips;
a row whose byte length is not a multiple of 8 instead raises. -/
theorem c2_shape_mismatch_skipped (S : SqrtModel) (J : JsonModel) (db : DB)
    (q : List ℚ) (minSim : ℚ) (r : EmbeddingRow) (rs : List EmbeddingRow)
    (hx : r.embedding.extra.val = 0)
    (hlen : r.embedding.chunks.length ≠ q.length) :
    scanRows S J db q minSim (r :: rs) = scanRows S J db q minSim rs := by
  show ((frombuffer r.embedding).bind _ = _)
  unfold frombuffer
  rw [if_pos hx]
  simp [Except.bind, hlen]

/-- C2 witness: a two-element blob against a one-dimensional query is
skipped. -/
theorem c2_shape_mismatch_skipped_witness :
    scanRows sqrtId jsonId dbEmpty [1] 0
        [⟨"decisions", 1, ⟨[1, 2], 0⟩, "tx", "tfidf", "n"⟩] =
      scanRows sqrtId jsonId dbEmpty [1] 0 [] :=
  c2_shape_mismatch_skipped sqrtId jsonId dbEmpty [1] 0
    ⟨"decisions", 1, ⟨[1, 2], 0⟩, "tx", "tfidf", "n"⟩ [] (by rfl) (by decide)

/-- C3 counterexample: two candidates tie at similarity 1, and the returned
order keeps the scan order (older timestamp 2020 first), not the
most-recent-first order the claim requires. -/
theorem c3_tie_not_recency_ordered :
    (semantic_search sqrtId jsonId provOne dbC3 "q" 5 [] (1/10)).map
      (fun l => l.map (fun r => (r.item_id, r.similarity_score, r.timestamp))) =
    .ok [(1, 1, some "2020-01-01T00:00:00Z"), (2, 1, some "2021-01-01T00:00:00Z")] := by
  norm_num [semantic_search, semanticSearchGen, Provider.encode1, provOne, scanRows,
    frombuffer, getFullItemData, getItemTextContent, dotp, normSq, sqrtId, jsonId, dbC3,
    wrapSearchErr, Except.instMonad, Except.bind, Except.map, Except.pure,
    List.insertionSort, List.orderedInsert, simGE, ItemData.phaseName, ItemData.tstamp]

/-- C3 amended: every successful semantic_search returns a list sorted by
similarity score descending (ties keep the stable scan order, as with the
stable Python sort) and truncated to at most top_k results. -/
theorem c3_sorted_truncated (S : SqrtModel) (J : JsonModel) (p : Provider) (db : DB)
    (query : String) (top_k : Nat) (filt : List String) (minSim : ℚ)
    (res : List SearchResult)
    (h : semantic_search S J p db query top_k filt minSim = .ok res) :
    List.Sorted simGE res ∧ res.length ≤ top_k := by
  obtain ⟨q, results, henc, hscan, hres⟩ :=
    semantic_search_ok_elim S J p db query top_k filt minSim res h
  subst hres
  constructor
  · exact (List.sorted_insertionSort simGE results).sublist
      (List.take_sublist top_k (List.insertionSort simGE results))
  · rw [List.length_take]
    exact min_le_left _ _

/-- C3 witness: a concrete one-result search is sorted and within top_k. -/
theorem c3_sorted_truncated_witness :
    List.Sorted simGE [resW] ∧ ([resW] : List SearchResult).length ≤ 5 :=
  c3_sorted_truncated sqrtId jsonId provOne dbW "q" 5 [] (1/10) [resW] (by
    norm_num [semantic_search, semanticSearchGen, Provider.encode1, provOne, scanRows,
      frombuffer, getFullItemData, getItemTextContent, dotp, normSq, sqrtId, jsonId, dbW,
      wrapSearchErr, Except.instMonad, Except.bind, Except.map, Except.pure,
      List.insertionSort, List.orderedInsert, simGE, ItemData.phaseName,
      ItemData.tstamp, resW])

/-- C4 counterexample: on the enhanced server, logging a progress item
through the hook stores an embedding for its description old; a subsequent
update_progress changing the description to new returns with the stored
embedding row still computed from old, so the stored vector is not up to
date with the record text when the operation returns. -/
theorem c4_update_progress_leaves_stale :
    c4chain = some (some "new", some "old") ∧ (("new" : String) ≠ "old") :=
  ⟨by rfl, by decide⟩

/-- C4 amended: each of the four create hooks (log_decision, log_progress,
log_system_pattern, log_custom_data) refreshes the embedding of the new id
synchronously before returning, so the stored row for that id holds the
encoding of its current text; update_progress is not hooked and leaves the
item_embeddings table unchanged, so its write is not followed by any
refresh. -/
theorem c4_hooks_refresh (J : JsonModel) (p : Provider) (db : DB) (ts phase : String) :
    (∀ s r tg i db2 t v, hooked_log_decision J p db s r tg ts phase = .ok (i, db2) →
      getItemTextContent J db2 "decisions" i = some t → t ≠ "" →
      p.encodeB [t] = .ok [v] →
      lookupEmb db2 "decisions" i p.name = some ⟨"decisions", i, ⟨v, 0⟩, t, p.name, ts⟩)
  ∧ (∀ d st pid i db2 t v, hooked_log_progress J p db d st pid ts phase = .ok (i, db2) →
      getItemTextContent J db2 "progress" i = some t → t ≠ "" →
      p.encodeB [t] = .ok [v] →
      lookupEmb db2 "progress" i p.name = some ⟨"progress", i, ⟨v, 0⟩, t, p.name, ts⟩)
  ∧ (∀ n d tg i db2 t v, hooked_log_system_pattern J p db n d tg ts phase = .ok (i, db2) →
      getItemTextContent J db2 "system_patterns" i = some t → t ≠ "" →
      p.encodeB [t] = .ok [v] →
      lookupEmb db2 "system_patterns" i p.name =
        some ⟨"system_patterns", i, ⟨v, 0⟩, t, p.name, ts⟩)
  ∧ (∀ c k val i db2 t v, hooked_log_custom_data J p db c k val ts phase = .ok (i, db2) →
      getItemTextContent J db2 "custom_data" i = some t → t ≠ "" →
      p.encodeB [t] = .ok [v] →
      lookupEmb db2 "custom_data" i p.name =
        some ⟨"custom_data", i, ⟨v, 0⟩, t, p.name, ts⟩)
  ∧ (∀ pid s? d? par? db2, update_progress db pid s? d? par? = .ok db2 →
      db2.item_embeddings = db.item_embeddings) := by
  refine ⟨?_, ?_, ?_, ?_, ?_⟩
  · intro s r tg i db2 t v hh ht2 hne he
    unfold hooked_log_decision at hh
    exact hookRefresh J p _ "decisions" _ ts i db2 t v hh ht2 hne he
  · intro d st pid i db2 t v hh ht2 hne he
    unfold hooked_log_progress at hh
    exact hookRefresh J p _ "progress" _ ts i db2 t v hh ht2 hne he
  · intro n d tg i db2 t v hh ht2 hne he
    unfold hooked_log_system_pattern at hh
    exact hookRefresh J p _ "system_patterns" _ ts i db2 t v hh ht2 hne he
  · intro c k val i db2 t v hh ht2 hne he
    unfold hooked_log_custom_data at hh
    exact hookRefresh J p _ "custom_data" _ ts i db2 t v hh ht2 hne he
  · intro pid s? d? par? db2 h
    unfold update_progress at h
    split_ifs at h with h1 h2
    cases h
    rfl

/-- C4 witness: the hooked log_progress call on the empty database stores
the encoding of the logged description. -/
theorem c4_hooks_refresh_witness :
    lookupEmb c4db1 "progress" 1 provOne.name =
      some ⟨"progress", 1, ⟨[1], 0⟩, "old", provOne.name, "t1"⟩ :=
  (c4_hooks_refresh jsonId provOne dbEmpty "t1" "ph").2.1 "old" "st" none 1 c4db1
    "old" [1] (by rfl) (by rfl) (by decide) (by rfl)

/-- C5: update_embeddings and rebuild_all_embeddings preserve the
at-most-one-row-per-(item_type, item_id, embedding_model) invariant of the
UNIQUE constraint, and refreshing one id twice with unchanged source text
leaves exactly one stored row for that key, with the same text_content both
times and a byte-identical vector (the provider model is deterministic). -/
theorem c5_unique_upsert_idempotent (J : JsonModel) (p : Provider) :
    (∀ db kind ids ts db2, update_embeddings J p db kind ids ts = .ok db2 →
      UniqEmb db.item_embeddings → UniqEmb db2.item_embeddings)
  ∧ (∀ db ts db2, rebuild_all_embeddings J p db ts = .ok db2 →
      UniqEmb db.item_embeddings → UniqEmb db2.item_embeddings)
  ∧ (∀ db kind i t v ts1 ts2 db1 db2,
      getItemTextContent J db kind i = some t → t ≠ "" → p.encodeB [t] = .ok [v] →
      update_embeddings J p db kind [i] ts1 = .ok db1 →
      update_embeddings J p db1 kind [i] ts2 = .ok db2 →
      countKey db2 kind i p.name = 1 ∧
      (lookupEmb db1 kind i p.name).map (fun r => r.text_content) = some t ∧
      (lookupEmb db2 kind i p.name).map (fun r => r.text_content) = some t ∧
      (lookupEmb db2 kind i p.name).map (fun r => r.embedding) =
        (lookupEmb db1 kind i p.name).map (fun r => r.embedding)) := by
  refine ⟨?_, ?_, ?_⟩
  · intro db kind ids ts db2 h hu
    exact update_embeddings_uniq J p db kind ids ts db2 h hu
  · intro db ts db2 h hu
    exact rebuild_uniq J p db ts db2 h hu
  · intro db kind i t v ts1 ts2 db1 db2 ht hne he h1 h2
    have d1 := update_embeddings_single J p db kind i ts1 t v db1 ht hne he h1
    have hsrc := update_embeddings_sources J p db kind [i] ts1 db1 h1
    have ht1 : getItemTextContent J db1 kind i = some t := by
      rw [getItemTextContent_sources J db1 db kind i hsrc.1 hsrc.2.1 hsrc.2.2.1
        hsrc.2.2.2]
      exact ht
    have d2 := update_embeddings_single J p db1 kind i ts2 t v db2 ht1 hne he h2
    refine ⟨?_, ?_, ?_, ?_⟩
    · rw [d2]
      exact countKey_upsert_one db1 ⟨kind, i, ⟨v, 0⟩, t, p.name, ts2⟩
    · rw [d1, lookup_upsert db ⟨kind, i, ⟨v, 0⟩, t, p.name, ts1⟩]
      rfl
    · rw [d2, lookup_upsert db1 ⟨kind, i, ⟨v, 0⟩, t, p.name, ts2⟩]
      rfl
    · rw [d1, d2, lookup_upsert db ⟨kind, i, ⟨v, 0⟩, t, p.name, ts1⟩,
        lookup_upsert db1 ⟨kind, i, ⟨v, 0⟩, t, p.name, ts2⟩]
      rfl

/-- C5 witness: refreshing progress item 1 of dbP twice leaves one row with
the unchanged text and the same stored vector. -/
theorem c5_unique_upsert_idempotent_witness :
    countKey c5db2 "progress" 1 provOne.name = 1 ∧
    (lookupEmb c5db1 "progress" 1 provOne.name).map (fun r => r.text_content) =
      some "old" ∧
    (lookupEmb c5db2 "progress" 1 provOne.name).map (fun r => r.text_content) =
      some "old" ∧
    (lookupEmb c5db2 "progress" 1 provOne.name).map (fun r => r.embedding) =
      (lookupEmb c5db1 "progress" 1 provOne.name).map (fun r => r.embedding) :=
  (c5_unique_upsert_idempotent jsonId provOne).2.2 dbP "progress" 1 "old" [1] "t1" "t2"
    c5db1 c5db2 (by rfl) (by decide) (by rfl) (by rfl) (by rfl)

/-- C6: when embedding the query raises, semantic_search propagates the
typed failure (a sqlite error is wrapped into SemanticSearchError, any
other provider exception propagates unchanged), and a storage failure
while fetching the stored rows surfaces as SemanticSearchError; in neither
case is an empty result list returned in place of the error. -/
theorem c6_failures_propagate (S : SqrtModel) (J : JsonModel) (db : DB) (top_k : Nat)
    (filt : List String) (minSim : ℚ) :
    (∀ (p : Provider) (query : String) (e : PyError), p.encode1 query = .error e →
      semantic_search S J p db query top_k filt minSim = .error (wrapSearchErr e))
  ∧ (∀ q : List ℚ,
      semanticSearchGen S J db (.ok q) (.error .databaseError) top_k filt minSim =
        .error .semanticSearchError) := by
  constructor
  · intro p query e he
    unfold semantic_search semanticSearchGen
    rw [he]
  · intro q
    rfl

/-- C6 witness: the always-failing provider makes the concrete search fail
rather than return an empty list. -/
theorem c6_failures_propagate_witness :
    semantic_search sqrtId jsonId provFail dbEmpty "q" 5 [] 0 =
      .error (wrapSearchErr .providerError) :=
  (c6_failures_propagate sqrtId jsonId dbEmpty 5 [] 0).1 provFail "q" .providerError
    (by rfl)

/-- C7: every returned result stems from a stored row whose embedding_model
equals the active provider identity, and when a nonempty type filter is
given every returned item type belongs to it. -/
theorem c7_provider_and_type_filter (S : SqrtModel) (J : JsonModel) (p : Provider)
    (db : DB) (query : String) (top_k : Nat) (filt : List String) (minSim : ℚ)
    (res : List SearchResult)
    (h : semantic_search S J p db query top_k filt minSim = .ok res) :
    ∀ sr ∈ res, (filt ≠ [] → sr.item_type ∈ filt) ∧
      ∃ row ∈ db.item_embeddings, row.embedding_model = p.name ∧
        row.item_type = sr.item_type ∧ row.item_id = sr.item_id := by
  obtain ⟨q, results, henc, hscan, hres⟩ :=
    semantic_search_ok_elim S J p db query top_k filt minSim res h
  intro sr hsr
  rw [hres] at hsr
  have hsr2 : sr ∈ results :=
    (List.mem_insertionSort simGE).mp (List.take_subset top_k _ hsr)
  obtain ⟨row, hrow, ht, hi, -⟩ :=
    scanRows_ok_mem S J db q minSim _ results hscan sr hsr2
  by_cases hfe : filt.isEmpty = true
  · rw [if_pos hfe] at hrow
    obtain ⟨hmem, hmod⟩ := List.mem_filter.mp hrow
    refine ⟨fun hne => absurd (List.isEmpty_iff.mp hfe) hne, row, hmem, ?_, ht, hi⟩
    exact beq_iff_eq.mp hmod
  · rw [if_neg hfe] at hrow
    obtain ⟨hrow1, hcont⟩ := List.mem_filter.mp hrow
    obtain ⟨hmem, hmod⟩ := List.mem_filter.mp hrow1
    refine ⟨fun _ => ?_, row, hmem, beq_iff_eq.mp hmod, ht, hi⟩
    rw [← ht]
    exact List.elem_iff.mp hcont

/-- C7 witness: the concrete filtered search returns only decisions rows
stored under the tfidf identity. -/
theorem c7_provider_and_type_filter_witness :
    resW.item_type ∈ ["decisions"] ∧
    ∃ row ∈ dbW.item_embeddings, row.embedding_model = provOne.name ∧
      row.item_type = resW.item_type ∧ row.item_id = resW.item_id := by
  have h := c7_provider_and_type_filter sqrtId jsonId provOne dbW "q" 5 ["decisions"]
    (1/10) [resW] (by
      norm_num [semantic_search, semanticSearchGen, Provider.encode1, provOne, scanRows,
        frombuffer, getFullItemData, getItemTextContent, dotp, normSq, sqrtId, jsonId,
        dbW, wrapSearchErr, Except.instMonad, Except.bind, Except.map, Except.pure,
        List.insertionSort, List.orderedInsert, simGE, ItemData.phaseName,
        ItemData.tstamp, resW]) resW (List.mem_singleton.mpr rfl)
  exact ⟨h.1 (by decide), h.2⟩

/-- C8: no returned result refers to an item whose source row is absent at
hydration time, and a candidate whose source row has been deleted is
silently dropped by the scan without raising. -/
theorem c8_hydration_guard (S : SqrtModel) (J : JsonModel) (p : Provider) (db : DB)
    (query : String) (top_k : Nat) (filt : List String) (minSim : ℚ) :
    (∀ res, semantic_search S J p db query top_k filt minSim = .ok res →
      ∀ sr ∈ res, ∃ d, getFullItemData J db sr.item_type sr.item_id = .ok (some d) ∧
        sr.content = d)
  ∧ (∀ (q : List ℚ) (ms : ℚ) (r : EmbeddingRow) (rs : List EmbeddingRow),
      r.embedding.extra.val = 0 → r.embedding.chunks.length = q.length →
      getFullItemData J db r.item_type r.item_id = .ok none →
      scanRows S J db q ms (r :: rs) = scanRows S J db q ms rs) := by
  constructor
  · intro res h sr hsr
    obtain ⟨q, results, henc, hscan, hres⟩ :=
      semantic_search_ok_elim S J p db query top_k filt minSim res h
    rw [hres] at hsr
    have hsr2 : sr ∈ results :=
      (List.mem_insertionSort simGE).mp (List.take_subset top_k _ hsr)
    obtain ⟨row, hrow, ht, hi, d, hfd, hc⟩ :=
      scanRows_ok_mem S J db q minSim _ results hscan sr hsr2
    exact ⟨d, by rw [← ht, ← hi]; exact hfd, hc⟩
  · intro q ms r rs hx hlen hfd
    rw [scanRows_cons]
    unfold frombuffer
    rw [if_pos hx]
    simp only [Except.bind]
    rw [if_pos hlen]
    split_ifs with hd hs
    · rfl
    · rw [hfd]
      simp only [Except.bind]
      cases hrec : scanRows S J db q ms rs <;> simp [Except.bind]
    · rfl

/-- C8 witness: the concrete result hydrates from a live row, and a stored
vector whose decision row is gone is dropped without an error. -/
theorem c8_hydration_guard_witness :
    (∃ d, getFullItemData jsonId dbW resW.item_type resW.item_id = .ok (some d) ∧
      resW.content = d) ∧
    scanRows sqrtId jsonId dbOrphan [1] 0
        [⟨"decisions", 1, ⟨[1], 0⟩, "tx", "tfidf", "n"⟩] =
      scanRows sqrtId jsonId dbOrphan [1] 0 [] :=
  ⟨(c8_hydration_guard sqrtId jsonId provOne dbW "q" 5 [] (1/10)).1 [resW] (by
      norm_num [semantic_search, semanticSearchGen, Provider.encode1, provOne, scanRows,
        frombuffer, getFullItemData, getItemTextContent, dotp, normSq, sqrtId, jsonId,
        dbW, wrapSearchErr, Except.instMonad, Except.bind, Except.map, Except.pure,
        List.insertionSort, List.orderedInsert, simGE, ItemData.phaseName,
        ItemData.tstamp, resW]) resW (List.mem_singleton.mpr rfl),
   (c8_hydration_guard sqrtId jsonId provOne dbOrphan "q" 5 [] (1/10)).2 [1] 0
     ⟨"decisions", 1, ⟨[1], 0⟩, "tx", "tfidf", "n"⟩ [] (by rfl) (by rfl) (by rfl)⟩

/-- C9: per-kind text extraction agrees everywhere with the extractor the
spec describes (decision, progress, pattern and custom-datum formats, with
JSON string unwrapping, non-string re-serialization, and verbatim fallback
on parse failure), and an unknown kind yields no text; the function is
total, so extraction never fails. -/
theorem c9_text_extraction_refines (J : JsonModel) (db : DB) (kind : String) (i : Nat) :
    getItemTextContent J db kind i = textExtractSpec J db kind i ∧
    (kind ∉ ["decisions", "progress", "system_patterns", "custom_data"] →
      getItemTextContent J db kind i = none) := by
  constructor
  · unfold getItemTextContent textExtractSpec
    split_ifs <;> try rfl
    congr 1
    funext r
    unfold renderedValue
    cases h : J.loads r.value with
    | none => simp [h]
    | some v => cases v <;> simp [h]
  · intro hk
    simp only [List.mem_cons, List.mem_singleton, not_or] at hk
    obtain ⟨h1, h2, h3, h4⟩ := hk
    unfold getItemTextContent
    simp [h1, h2, h3, h4]

/-- C9 witness: code and spec extractors agree at a concrete unknown kind,
which yields no text. -/
theorem c9_text_extraction_refines_witness :
    (getItemTextContent jsonId dbW "foo" 1 = textExtractSpec jsonId dbW "foo" 1) ∧
    getItemTextContent jsonId dbW "foo" 1 = none :=
  ⟨(c9_text_extraction_refines jsonId dbW "foo" 1).1,
   (c9_text_extraction_refines jsonId dbW "foo" 1).2 (by decide)⟩

/-- C10: update_progress raises ValueError when no field is provided,
before any database access; raises DatabaseUpdateError when the row does
not exist; and on success applies every requested field change to the
target row in one atomic update, touching nothing else, while error
outcomes leave the database unchanged. -/
theorem c10_update_progress_contract (db : DB) (pid : Nat) (s? d? : Option String)
    (par? : Option Int) :
    (update_progress db pid none none none = .error .valueError)
  ∧ (¬(s? = none ∧ d? = none ∧ par? = none) →
      db.progress.find? (fun r => r.id == pid) = none →
      update_progress db pid s? d? par? = .error .databaseUpdateError)
  ∧ (∀ db2, update_progress db pid s? d? par? = .ok db2 →
      db2.progress = db.progress.map (fun r =>
        if r.id == pid then applyProgressUpdate r s? d? par? else r) ∧
      db2.decisions = db.decisions ∧ db2.system_patterns = db.system_patterns ∧
      db2.custom_data = db.custom_data ∧ db2.item_embeddings = db.item_embeddings) := by
  refine ⟨rfl, ?_, ?_⟩
  · intro hsome hfind
    unfold update_progress
    have hb : (s?.isNone && d?.isNone && par?.isNone) = false := by
      rcases s? <;> rcases d? <;> rcases par? <;> simp_all
    rw [hb]
    simp [hfind]
  · intro db2 h
    unfold update_progress at h
    split_ifs at h with h1 h2
    cases h
    exact ⟨rfl, rfl, rfl, rfl, rfl⟩

/-- C10 witness: the three contract clauses at concrete inputs on dbP. -/
theorem c10_update_progress_contract_witness :
    (update_progress dbP 1 none none none = .error .valueError)
  ∧ (update_progress dbP 2 (some "x") none none = .error .databaseUpdateError)
  ∧ (dbPupd.progress = dbP.progress.map (fun r =>
        if r.id == 1 then applyProgressUpdate r (some "done") none none else r) ∧
      dbPupd.decisions = dbP.decisions ∧ dbPupd.system_patterns = dbP.system_patterns ∧
      dbPupd.custom_data = dbP.custom_data ∧
      dbPupd.item_embeddings = dbP.item_embeddings) :=
  ⟨(c10_update_progress_contract dbP 1 none none none).1,
   (c10_update_progress_contract dbP 2 (some "x") none none).2.1 (by simp) (by rfl),
   (c10_update_progress_contract dbP 1 (some "done") none none).2.2 dbPupd (by rfl)⟩
